import Mathlib

/-!
# CrystalCore race engine — shallow embedding

A shallow embedding, in Lean, of the parts of the CrystalCore repository
needed to settle the claims about the race simulation: the `RaceEngine`
class of `src/engines/ProgressionEngine.ts` (the most complete engine,
lines 182–1598 of that file), the `hitObstacle` action of
`src/stores/gameStore.ts`, and the `adjustDifficulty` action of the
profile store (`src/unnamed/part_006`).

Modelling conventions:
* JavaScript numbers are embedded as exact rationals (`ℚ`); `Math.ceil`,
  `Math.floor`, `Math.min`, `Math.max`, `Math.abs` become `Int.ceil`,
  `Int.floor`, `min`, `max`, `abs` on `ℚ`.
* Callback invocations (`onShardCollect`, `onGatePass`, ...) are embedded
  as values of an `Event` type collected in emission order; purely
  cosmetic effects (particle bursts, screen shake, damage-flash rendering)
  do not affect any claim and are either carried as plain fields
  (`damageFlash`) or omitted (particle lists).
* Sources of randomness and of irrational arithmetic (`Math.random`,
  the `sqrt` in boss aiming) are taken as explicit parameters.
* The global mutable `CANVAS_WIDTH` / `CANVAS_HEIGHT` are threaded as
  explicit parameters `canvasW` / `canvasH`.
-/

namespace CrystalCore

/-- Game constants of `RaceEngine` (ProgressionEngine.ts lines 122-146). -/
def BASE_SCROLL_SPEED : ℚ := 180

def BOSS_SPAWN_DISTANCE : ℚ := 5000

def SHIP_WIDTH : ℚ := 44

def SHIP_HEIGHT : ℚ := 56

def BOSS_WIDTH : ℚ := 120

def BOSS_HEIGHT : ℚ := 80

def BOSS_SHOOT_INTERVAL : ℚ := 9/5

def BOSS_MAX_HEALTH : ℚ := 15

def BOSS_MATH_THRESHOLD : ℚ := 1/2

def BOSS_REWARD : ℕ := 75

def BOOST_SPEED_MULTIPLIER : ℚ := 3/2

def SHIP_MOVE_SPEED : ℚ := 500

def SHIP_LERP_TOUCH : ℚ := 7/50

def GATE_HEIGHT : ℚ := 60

/-- Ship state: position and smoothed-movement target (`ShipState`). -/
structure Ship where
  x : ℚ
  y : ℚ
  targetX : ℚ
  targetY : ℚ
deriving DecidableEq, Repr

/-- Obstacle kind: `'crystal' | 'rock'`. -/
inductive ObstacleType
  | crystal
  | rock
deriving DecidableEq, Repr

/-- Obstacle entity (rotation fields are cosmetic but kept; the procedural
polygon `shape` is render-only and omitted). -/
structure Obstacle where
  x : ℚ
  y : ℚ
  width : ℚ
  height : ℚ
  type : ObstacleType
  rotation : ℚ
  rotationSpeed : ℚ
deriving DecidableEq, Repr

/-- Gate entity.  Ids are embedded as naturals; the attached math problem is
produced by the external generator and never read by the engine logic the
claims are about, so it is omitted. -/
structure Gate where
  id : ℕ
  x : ℚ
  y : ℚ
  width : ℚ
  height : ℚ
  solved : Option Bool
  approached : Bool
deriving DecidableEq, Repr

/-- Projectile entity. -/
structure Projectile where
  x : ℚ
  y : ℚ
  vx : ℚ
  vy : ℚ
  width : ℚ
  height : ℚ
  damage : ℚ
  fromBoss : Bool
deriving DecidableEq, Repr

/-- Boss combat phase: `'entering' | 'attack' | 'math' | 'defeated'`. -/
inductive BossPhase
  | entering
  | attack
  | math
  | defeated
deriving DecidableEq, Repr

/-- Boss entity. -/
structure Boss where
  x : ℚ
  y : ℚ
  targetY : ℚ
  width : ℚ
  height : ℚ
  health : ℚ
  maxHealth : ℚ
  phase : BossPhase
  shootTimer : ℚ
  moveDirection : ℚ
  damageFlash : ℚ
  reward : ℕ
  mathTriggered : Bool
deriving DecidableEq, Repr

/-- Discrete events emitted to the engine callbacks, in emission order. -/
inductive Event
  | shardCollect (amount : ℕ)
  | obstacleHit
  | gateApproach (gateId : ℕ)
  | gatePass (correct : Bool)
  | bossSpawn
  | bossMathPhase
  | bossDefeated (reward : ℕ)
  | rockDestroyed
  | distanceUpdate (delta : ℚ)
deriving DecidableEq, Repr

/-- The engine-owned mutable state relevant to the claims. -/
structure RaceState where
  ship : Ship
  obstacles : List Obstacle
  gates : List Gate
  projectiles : List Projectile
  boss : Option Boss
  distance : ℚ
  lastBossDistance : ℚ
  isInvincible : Bool
deriving DecidableEq, Repr

/-- Number of `bossMathPhase` events in an emission list. -/
def countMathEvents : List Event → ℕ
  | [] => 0
  | Event.bossMathPhase :: rest => countMathEvents rest + 1
  | _ :: rest => countMathEvents rest

/-- Number of `gatePass` events in an emission list. -/
def countGatePassEvents : List Event → ℕ
  | [] => 0
  | Event.gatePass _ :: rest => countGatePassEvents rest + 1
  | _ :: rest => countGatePassEvents rest

/-- Number of `bossDefeated` events in an emission list. -/
def countBossDefeatedEvents : List Event → ℕ
  | [] => 0
  | Event.bossDefeated _ :: rest => countBossDefeatedEvents rest + 1
  | _ :: rest => countBossDefeatedEvents rest

/-- Number of `bossSpawn` events in an emission list. -/
def countBossSpawnEvents : List Event → ℕ
  | [] => 0
  | Event.bossSpawn :: rest => countBossSpawnEvents rest + 1
  | _ :: rest => countBossSpawnEvents rest

/-- Number of `obstacleHit` events in an emission list. -/
def countObstacleHitEvents : List Event → ℕ
  | [] => 0
  | Event.obstacleHit :: rest => countObstacleHitEvents rest + 1
  | _ :: rest => countObstacleHitEvents rest

/-- The keyboard keys read by `updateShip` (the `keys` set restricted to the
eight keys the code tests for). -/
structure KeyState where
  arrowLeft : Bool
  a : Bool
  arrowRight : Bool
  d : Bool
  arrowUp : Bool
  w : Bool
  arrowDown : Bool
  s : Bool
deriving DecidableEq, Repr

/-- `RaceEngine.updateShip` (lines 528-553): keyboard target adjustment,
exponential smoothing toward the target, and clamping to the viewport. -/
def updateShip (keys : KeyState) (touchActive : Bool) (dt canvasW canvasH : ℚ)
    (ship : Ship) : Ship :=
  let speed := SHIP_MOVE_SPEED * dt
  let t1 := if keys.arrowLeft || keys.a then ship.x - speed else ship.targetX
  let t2 := if keys.arrowRight || keys.d then ship.x + speed else t1
  let u1 := if keys.arrowUp || keys.w then ship.y - speed else ship.targetY
  let u2 := if keys.arrowDown || keys.s then ship.y + speed else u1
  let lerp := if touchActive then SHIP_LERP_TOUCH else 3/25
  let x1 := ship.x + (t2 - ship.x) * lerp
  let y1 := ship.y + (u2 - ship.y) * lerp
  let pad := SHIP_WIDTH / 2 + 4
  { x := max pad (min (canvasW - pad) x1)
    y := max (canvasH * (1/4)) (min (canvasH * (23/25)) y1)
    targetX := t2
    targetY := u2 }

/-- The body of the `updateGates` filter (lines 675-693) applied to one gate:
scroll the gate down, fire the approach event when it enters the approach
band, auto-fail it when it crosses below the ship while unresolved, and
report whether the gate is kept (still on screen).  `move` is
`scrollSpeed * dt`. -/
def updateGateStep (move shipY canvasH : ℚ) (g : Gate) :
    Gate × Bool × List Event :=
  let y := g.y + move
  let approachFires :=
    g.approached = false ∧ y > canvasH * (3/20) ∧ y < canvasH * (2/5)
  let approached := if approachFires then true else g.approached
  let evs1 := if approachFires then [Event.gateApproach g.id] else []
  let passFires := y > shipY + SHIP_HEIGHT ∧ g.solved = none
  let solved := if passFires then some false else g.solved
  let evs2 := if passFires then [Event.gatePass false] else []
  ({ g with y := y, approached := approached, solved := solved },
   decide (y < canvasH + 200), evs1 ++ evs2)

/-- `RaceEngine.updateGates` over the whole gate list, collecting survivors
and emitted events in order. -/
def updateGates (move shipY canvasH : ℚ) : List Gate → List Gate × List Event
  | [] => ([], [])
  | g :: rest =>
    let (g1, keep, evs) := updateGateStep move shipY canvasH g
    let (rest1, evsRest) := updateGates move shipY canvasH rest
    ((if keep then g1 :: rest1 else rest1), evs ++ evsRest)

/-- A sequence of per-tick gate parameters `(move, shipY, canvasH)` applied
to a single gate; once the gate is dropped by a tick's off-screen check no
further ticks see it. -/
def runGateTicks : List (ℚ × ℚ × ℚ) → Option Gate → Option Gate × List Event
  | _, none => (none, [])
  | [], some g => (some g, [])
  | (m, sy, hh) :: rest, some g =>
    let (g1, keep, evs) := updateGateStep m sy hh g
    let (og2, evsRest) := runGateTicks rest (if keep then some g1 else none)
    (og2, evs ++ evsRest)

/-- In-place mutation of the first gate with the given id (source:
`this.gates.find((g) => g.id === gateId)` followed by field assignment);
`none` when no gate matches. -/
def resolveFirstGate (gateId : ℕ) (correct : Bool) :
    List Gate → Option (List Gate)
  | [] => none
  | g :: rest =>
    if g.id = gateId then some ({ g with solved := some correct } :: rest)
    else
      match resolveFirstGate gateId correct rest with
      | some rest1 => some (g :: rest1)
      | none => none

/-- `RaceEngine.setGateResult` (lines 1532-1541): look the gate up by id and,
if present, set `solved := correct` and emit `gatePass correct`
(unconditionally — there is no check that the gate is still unresolved).
The success particle burst is cosmetic and omitted. -/
def setGateResult (gateId : ℕ) (correct : Bool) (gates : List Gate) :
    List Gate × List Event :=
  match resolveFirstGate gateId correct gates with
  | some gates1 => (gates1, [Event.gatePass correct])
  | none => (gates, [])

/-- `hitObstacle` of `src/stores/gameStore.ts` (lines 184-211), reduced to
its data core: given the profile's shield capacity and the run's current
`shieldHits`, return the new `shieldHits` and whether a respawn is needed. -/
def hitObstacle (shield : ℕ) (shieldHits : ℕ) : ℕ × Bool :=
  let newHits := shieldHits + 1
  if newHits ≥ shield then (0, true) else (newHits, false)

/-- Session accuracy as computed by `adjustDifficulty`
(`src/unnamed/part_006` lines 298-300): `correctAnswers / gatesAttempted`,
or `0.5` when no gate was attempted. -/
def sessionAccuracy (gatesAttempted correctAnswers : ℕ) : ℚ :=
  if gatesAttempted > 0 then (correctAnswers : ℚ) / (gatesAttempted : ℚ)
  else 1/2

/-- `adjustDifficulty` of `src/unnamed/part_006` (lines 294-322), data core:
the adjusted difficulty level for the active profile. -/
def adjustDifficulty (difficulty gatesAttempted correctAnswers : ℕ) : ℕ :=
  let accuracy := sessionAccuracy gatesAttempted correctAnswers
  if accuracy > 4/5 ∧ difficulty < 5 then difficulty + 1
  else if accuracy < 2/5 ∧ difficulty > 1 then difficulty - 1
  else difficulty

/-- The inner downward loop of the player-projectile-vs-rock check
(lines 579-594): the source iterates `i` from the end of `obstacles` and
splices out the first overlapping rock it finds, i.e. the overlapping rock
of highest index.  Returns the obstacle list with that rock removed, or
`none` when no rock overlaps. -/
def destroyLastHitRock (p : Projectile) : List Obstacle → Option (List Obstacle)
  | [] => none
  | o :: rest =>
    match destroyLastHitRock p rest with
    | some rest1 => some (o :: rest1)
    | none =>
      if o.type = ObstacleType.rock ∧
          |p.x - o.x| < (p.width + o.width) / 2 ∧
          |p.y - o.y| < (p.height + o.height) / 2
      then some rest
      else none

/-- The body of the `updateProjectiles` filter (lines 555-643) applied to one
projectile: move it, drop it off-screen, resolve boss-projectile-vs-ship,
player-projectile-vs-rock and player-projectile-vs-boss collisions.  Returns
the updated state, the surviving (moved) projectile if it is kept, and the
emitted events.

Note on the source's defeat branch: its
`this.projectiles = this.projectiles.filter((proj) => !proj.fromBoss)` is
dead code — the enclosing `this.projectiles = this.projectiles.filter(...)`
is still iterating the original array object and its result overwrites
`this.projectiles` when it completes, so that inner reassignment has no
observable effect and is not modelled.  The deferred
`setTimeout(() => { this.boss = null }, 1500)` is modelled as the separate
`EngineOp.bossClear` step. -/
def stepProjectile (dt canvasW canvasH : ℚ) (s : RaceState) (p0 : Projectile) :
    RaceState × Option Projectile × List Event :=
  let p := { p0 with x := p0.x + p0.vx * dt, y := p0.y + p0.vy * dt }
  if p.y < -30 ∨ p.y > canvasH + 30 ∨ p.x < -30 ∨ p.x > canvasW + 30 then
    (s, none, [])
  else if p.fromBoss then
    if s.isInvincible = false ∧
        |p.x - s.ship.x| < (p.width + SHIP_WIDTH) / 2 - 8 ∧
        |p.y - s.ship.y| < (p.height + SHIP_HEIGHT) / 2 - 8
    then (s, none, [Event.obstacleHit])
    else (s, some p, [])
  else
    match destroyLastHitRock p s.obstacles with
    | some obstacles1 =>
      ({ s with obstacles := obstacles1 }, none,
       [Event.rockDestroyed, Event.shardCollect 1])
    | none =>
      match s.boss with
      | some b =>
        if b.phase = BossPhase.attack ∧
            |p.x - b.x| < (p.width + b.width) / 2 ∧
            |p.y - b.y| < (p.height + b.height) / 2
        then
          let b1 := { b with health := b.health - p.damage, damageFlash := 3/20 }
          let trig :=
            b1.mathTriggered = false ∧
              b1.health ≤ b1.maxHealth * BOSS_MATH_THRESHOLD
          let b2 :=
            if trig
            then { b1 with mathTriggered := true, phase := BossPhase.math }
            else b1
          let evs2 := if trig then [Event.bossMathPhase] else []
          if b2.health ≤ 0 then
            ({ s with boss := some { b2 with phase := BossPhase.defeated },
                      lastBossDistance := s.distance }, none,
             evs2 ++ [Event.bossDefeated b2.reward, Event.shardCollect b2.reward])
          else
            ({ s with boss := some b2 }, none, evs2)
        else (s, some p, [])
      | none => (s, some p, [])

/-- Fold of `stepProjectile` over a projectile list, threading the state and
collecting survivors and events in order. -/
def runProjectileList (dt canvasW canvasH : ℚ) (s : RaceState) :
    List Projectile → RaceState × List Projectile × List Event
  | [] => (s, [], [])
  | p :: rest =>
    let (s1, kept, evs) := stepProjectile dt canvasW canvasH s p
    let (s2, keptRest, evsRest) := runProjectileList dt canvasW canvasH s1 rest
    (s2,
     (match kept with
      | some q => q :: keptRest
      | none => keptRest),
     evs ++ evsRest)

/-- `RaceEngine.updateProjectiles` (lines 555-643): run the filter body over
the current projectile list and replace the list with the survivors. -/
def updateProjectiles (dt canvasW canvasH : ℚ) (s : RaceState) :
    RaceState × List Event :=
  let (s1, kept, evs) := runProjectileList dt canvasW canvasH s s.projectiles
  ({ s1 with projectiles := kept }, evs)

/-- `RaceEngine.fireBossProjectile` (lines 865-882), the projectile it
pushes.  The source aims roughly at the ship, dividing by a real square root
and adding a random spread; the resulting velocity is taken as the explicit
parameter `v`. -/
def bossProjectileAt (b : Boss) (v : ℚ × ℚ) : Projectile :=
  { x := b.x
    y := b.y + BOSS_HEIGHT / 2
    vx := v.1
    vy := v.2
    width := 14
    height := 14
    damage := 1
    fromBoss := true }

/-- `RaceEngine.updateBoss` (lines 695-726): damage-flash decay, the
`entering` slide toward `targetY`, the `attack` horizontal oscillation and
cadenced fire, and the `defeated` upward drift.  `bulletV` stands for the
aim-with-spread velocity of a fired boss projectile. -/
def updateBoss (dt canvasW : ℚ) (bulletV : ℚ × ℚ) (s : RaceState) : RaceState :=
  match s.boss with
  | none => s
  | some b0 =>
    let b1 :=
      if b0.damageFlash > 0 then { b0 with damageFlash := b0.damageFlash - dt }
      else b0
    match b1.phase with
    | BossPhase.entering =>
      let b2 := { b1 with y := b1.y + (b1.targetY - b1.y) * (3/100) }
      let b3 :=
        if |b2.y - b2.targetY| < 5 then { b2 with phase := BossPhase.attack }
        else b2
      { s with boss := some b3 }
    | BossPhase.attack =>
      let x1 := b1.x + b1.moveDirection * 80 * dt
      let md :=
        if x1 < BOSS_WIDTH / 2 + 20 ∨ x1 > canvasW - BOSS_WIDTH / 2 - 20
        then -b1.moveDirection else b1.moveDirection
      let st := b1.shootTimer + dt
      if st ≥ BOSS_SHOOT_INTERVAL then
        let b2 := { b1 with x := x1, moveDirection := md, shootTimer := 0 }
        { s with boss := some b2,
                 projectiles := s.projectiles ++ [bossProjectileAt b2 bulletV] }
      else
        { s with boss := some { b1 with x := x1, moveDirection := md, shootTimer := st } }
    | BossPhase.math => { s with boss := some b1 }
    | BossPhase.defeated =>
      { s with boss := some { b1 with y := b1.y - 30 * dt } }

/-- `RaceEngine.spawnBoss` (lines 821-844).  `age` is `profile.age`;
`moveDir` stands for the random initial direction (`±1`). -/
def spawnBoss (age : ℕ) (moveDir canvasW canvasH : ℚ) : Boss :=
  let hp : ℚ :=
    if age ≤ 8 then ((⌊BOSS_MAX_HEALTH * (3/5)⌋ : ℤ) : ℚ) else BOSS_MAX_HEALTH
  { x := canvasW / 2
    y := -BOSS_HEIGHT
    targetY := canvasH * (3/25)
    width := BOSS_WIDTH
    height := BOSS_HEIGHT
    health := hp
    maxHealth := hp
    phase := BossPhase.entering
    shootTimer := 0
    moveDirection := moveDir
    damageFlash := 0
    reward := BOSS_REWARD
    mathTriggered := false }

/-- The slice of `RaceEngine.update` (lines 446-517) that advances the run
distance and performs the boss spawn check: distance is incremented by
`scrollSpeed * dt` first (line 452), and the check
`!this.boss && this.distance - this.lastBossDistance >= BOSS_SPAWN_DISTANCE
&& this.distance > 2000` (line 515) then uses the incremented distance.
The other parts of `update` (screen shake, timers, the entity sub-updates,
the accumulator spawns, the checkpoint check) never touch `this.boss`. -/
def updateDistanceAndBossSpawn (dt speedStat : ℚ) (isBoosting : Bool)
    (age : ℕ) (moveDir canvasW canvasH : ℚ) (s : RaceState) :
    RaceState × List Event :=
  let boostMul := if isBoosting then BOOST_SPEED_MULTIPLIER else 1
  let scrollSpeed := BASE_SCROLL_SPEED * speedStat * boostMul
  let delta := scrollSpeed * dt
  let s1 := { s with distance := s.distance + delta }
  if s1.boss = none ∧ s1.distance - s1.lastBossDistance ≥ BOSS_SPAWN_DISTANCE ∧
      s1.distance > 2000
  then
    ({ s1 with boss := some (spawnBoss age moveDir canvasW canvasH) },
     [Event.distanceUpdate delta, Event.bossSpawn])
  else (s1, [Event.distanceUpdate delta])

/-- `RaceEngine.setBossMathResult` (lines 1543-1570): no-op without a boss;
on `correct`, `Math.ceil(maxHealth * 0.3)` bonus damage followed by either
defeat or a return to `attack`; on incorrect, a `Math.ceil(maxHealth * 0.1)`
heal capped at `maxHealth` and an unconditional return to `attack`. -/
def setBossMathResult (correct : Bool) (s : RaceState) :
    RaceState × List Event :=
  match s.boss with
  | none => (s, [])
  | some b =>
    if correct then
      let bonusDamage : ℚ := ((⌈b.maxHealth * (3/10)⌉ : ℤ) : ℚ)
      let b1 : Boss := { b with health := b.health - bonusDamage, damageFlash := 3/10 }
      if b1.health ≤ (0 : ℚ) then
        ({ s with boss := some { b1 with phase := BossPhase.defeated },
                  projectiles := s.projectiles.filter (fun p => !p.fromBoss),
                  lastBossDistance := s.distance },
         [Event.bossDefeated b1.reward, Event.shardCollect b1.reward])
      else
        ({ s with boss := some { b1 with phase := BossPhase.attack } }, [])
    else
      let healed := min b.maxHealth (b.health + ((⌈b.maxHealth * (1/10)⌉ : ℤ) : ℚ))
      ({ s with boss := some { b with health := healed, phase := BossPhase.attack } }, [])

/-- The engine steps that can run during one boss instance's lifetime, i.e.
every code path that reads or writes `this.boss` or can emit
`onBossMathPhase`, other than `spawnBoss` itself (which begins a new
instance): the `updateProjectiles` sub-update, the `updateBoss` sub-update,
the `setBossMathResult` re-entry call, and the deferred `setTimeout`
removal of a defeated boss.  `addProjectile` covers ship auto-fire and any
other projectile insertion (those code paths never touch the boss). -/
inductive EngineOp
  | projTick (dt canvasW canvasH : ℚ)
  | bossTick (dt canvasW : ℚ) (bulletV : ℚ × ℚ)
  | mathResult (correct : Bool)
  | bossClear
  | addProjectile (p : Projectile)
deriving Repr

/-- Apply one engine step. -/
def applyOp (s : RaceState) : EngineOp → RaceState × List Event
  | EngineOp.projTick dt cw ch => updateProjectiles dt cw ch s
  | EngineOp.bossTick dt cw v => (updateBoss dt cw v s, [])
  | EngineOp.mathResult c => setBossMathResult c s
  | EngineOp.bossClear => ({ s with boss := none }, [])
  | EngineOp.addProjectile p =>
    ({ s with projectiles := s.projectiles ++ [p] }, [])

/-- Run a sequence of engine steps, collecting all emitted events. -/
def runOps (s : RaceState) : List EngineOp → RaceState × List Event
  | [] => (s, [])
  | op :: rest =>
    let (s1, evs) := applyOp s op
    let (s2, evsRest) := runOps s1 rest
    (s2, evs ++ evsRest)

/-! ### Proof-support definitions and concrete states -/

/-- Remaining allowance of `bossMathPhase` emissions for a boss slot: `1`
while a live boss has not yet used its one-shot `mathTriggered` flag,
`0` otherwise. -/
def mathBudget : Option Boss → ℕ
  | none => 0
  | some b => if b.mathTriggered then 0 else 1

/-- Remaining allowance of tick-driven `gatePass` emissions for a gate slot:
`1` while a live gate is unresolved, `0` otherwise. -/
def gateBudget : Option Gate → ℕ
  | none => 0
  | some g => if g.solved = none then 1 else 0

/-- A ship resting at the centre-bottom of the default viewport. -/
def shipW : Ship := { x := 400, y := 500, targetX := 400, targetY := 500 }

/-- A boss sitting in the `math` phase at 7/15 health, its one-shot flag
already used. -/
def bossMathW : Boss :=
  { x := 400, y := 72, targetY := 72, width := 120, height := 80,
    health := 7, maxHealth := 15, phase := BossPhase.math, shootTimer := 0,
    moveDirection := 1, damageFlash := 0, reward := 75, mathTriggered := true }

/-- A boss in the `attack` phase at 8/15 health, one-shot flag unused. -/
def bossAttackW : Boss :=
  { bossMathW with health := 8, phase := BossPhase.attack, mathTriggered := false }

/-- A boss in the `defeated` phase at 0 health. -/
def bossDefeatedW : Boss :=
  { bossMathW with health := 0, phase := BossPhase.defeated }

/-- A boss in the `math` phase at exactly 10% of its max health. -/
def bossTenPercentW : Boss := { bossMathW with health := 3/2 }

/-- A boss projectile sitting exactly on the ship. -/
def bossShotOnShipW : Projectile :=
  { x := 400, y := 500, vx := 0, vy := 0, width := 14, height := 14,
    damage := 1, fromBoss := true }

/-- A player projectile sitting exactly on the boss. -/
def playerShotOnBossW : Projectile :=
  { x := 400, y := 72, vx := 0, vy := 0, width := 6, height := 18,
    damage := 1, fromBoss := false }

/-- Mid-run state: boss in `math` phase, one live boss projectile overlapping
the non-invincible ship. -/
def stateMathPhaseW : RaceState :=
  { ship := shipW, obstacles := [], gates := [],
    projectiles := [bossShotOnShipW],
    boss := some bossMathW, distance := 6000, lastBossDistance := 5000,
    isInvincible := false }

/-- Mid-run state: boss in `attack` phase at 8/15 health, no projectiles. -/
def stateAttackW : RaceState :=
  { stateMathPhaseW with boss := some bossAttackW, projectiles := [] }

/-- Mid-run state: boss in `math` phase at 10% health, no projectiles. -/
def stateTenPercentW : RaceState :=
  { stateMathPhaseW with boss := some bossTenPercentW, projectiles := [] }

/-- Mid-run state: boss already in the `defeated` phase, no projectiles. -/
def stateDefeatedW : RaceState :=
  { stateMathPhaseW with boss := some bossDefeatedW, projectiles := [] }

/-- A freshly spawned, unresolved, already-approached gate. -/
def gateUnresolvedW : Gate :=
  { id := 0, x := 400, y := 100, width := 800, height := 60,
    solved := none, approached := true }

/-- The same gate a few ticks later, just above the auto-fail threshold. -/
def gateNearShipW : Gate := { gateUnresolvedW with y := 560 }

/-- All keyboard keys released. -/
def noKeysW : KeyState :=
  { arrowLeft := false, a := false, arrowRight := false, d := false,
    arrowUp := false, w := false, arrowDown := false, s := false }

/-! ### Helper lemmas -/

theorem countMathEvents_append (l1 l2 : List Event) :
    countMathEvents (l1 ++ l2) = countMathEvents l1 + countMathEvents l2 := by
  induction l1 with
  | nil => simp [countMathEvents]
  | cons e rest ih =>
    cases e <;> simp [countMathEvents, ih]
    omega

theorem countGatePassEvents_append (l1 l2 : List Event) :
    countGatePassEvents (l1 ++ l2) =
      countGatePassEvents l1 + countGatePassEvents l2 := by
  induction l1 with
  | nil => simp [countGatePassEvents]
  | cons e rest ih =>
    cases e <;> simp [countGatePassEvents, ih]
    omega

/-- A tick never fires `gatePass` for an already-resolved gate and never
changes its `solved` value. -/
theorem updateGateStep_resolved_noop (m sy ch : ℚ) (g : Gate) (v : Bool)
    (h : g.solved = some v) :
    (updateGateStep m sy ch g).1.solved = some v ∧
    countGatePassEvents (updateGateStep m sy ch g).2.2 = 0 := by
  have hno : ¬(g.y + m > sy + SHIP_HEIGHT ∧ g.solved = none) := by
    rintro ⟨-, hc⟩
    rw [h] at hc
    exact Option.some_ne_none v hc
  refine ⟨?_, ?_⟩
  · simp only [updateGateStep, if_neg hno]
    exact h
  · simp only [updateGateStep, if_neg hno, countGatePassEvents_append]
    split <;> simp [countGatePassEvents]

/-! ### Claim theorems -/

/-- C8: with `profile.stats.shield = 3` and a fresh run (`shieldHits = 0`),
three successive `hitObstacle` calls produce the `shieldHits` sequence
`1`, `2`, then a reset to `0`; the first two calls return `false` and the
third returns `true` (respawn needed). -/
theorem shield_three_hits_sequence :
    (hitObstacle 3 0).1 = 1 ∧ (hitObstacle 3 0).2 = false ∧
    (hitObstacle 3 (hitObstacle 3 0).1).1 = 2 ∧
    (hitObstacle 3 (hitObstacle 3 0).1).2 = false ∧
    (hitObstacle 3 (hitObstacle 3 (hitObstacle 3 0).1).1).1 = 0 ∧
    (hitObstacle 3 (hitObstacle 3 (hitObstacle 3 0).1).1).2 = true := by
  decide

/-- C9: `adjustDifficulty` computes accuracy as
`correctAnswers / gatesAttempted`, increases the difficulty by exactly 1
when accuracy > 0.8 (capped at 5), decreases it by exactly 1 when accuracy
< 0.4 (floored at 1), leaves it unchanged otherwise, and leaves it
unchanged when no gate was attempted. -/
theorem adjustDifficulty_adaptive_rules (d g c : ℕ) (hd1 : 1 ≤ d) (hd5 : d ≤ 5) :
    (g = 0 → adjustDifficulty d g c = d) ∧
    (sessionAccuracy g c > 4/5 → adjustDifficulty d g c = min (d + 1) 5) ∧
    (sessionAccuracy g c < 2/5 → adjustDifficulty d g c = max (d - 1) 1) ∧
    (2/5 ≤ sessionAccuracy g c → sessionAccuracy g c ≤ 4/5 →
      adjustDifficulty d g c = d) := by
  refine ⟨?_, ?_, ?_, ?_⟩
  · intro hg
    subst hg
    simp only [adjustDifficulty, sessionAccuracy]
    norm_num
  · intro hacc
    simp only [adjustDifficulty]
    by_cases hd : d < 5
    · rw [if_pos ⟨hacc, hd⟩]
      omega
    · rw [if_neg (fun hc => hd hc.2), if_neg (fun hc => by linarith [hc.1])]
      omega
  · intro hacc
    simp only [adjustDifficulty]
    rw [if_neg (fun hc => by linarith [hc.1])]
    by_cases hd : 1 < d
    · rw [if_pos ⟨hacc, hd⟩]
      omega
    · rw [if_neg (fun hc => hd hc.2)]
      omega
  · intro hlo hhi
    simp only [adjustDifficulty]
    rw [if_neg (fun hc => by linarith [hc.1]), if_neg (fun hc => by linarith [hc.1])]

/-- C9 witness: a session of 5 gates, 5 correct, at difficulty 3 raises the
difficulty to 4. -/
theorem adjustDifficulty_adaptive_rules_witness : adjustDifficulty 3 5 5 = 4 := by
  have h := (adjustDifficulty_adaptive_rules 3 5 5 (by norm_num) (by norm_num)).2.1
    (by norm_num [sessionAccuracy])
  simpa using h

/-- C7: at the end of every tick's ship update — for every key, touch and
`deltaTime` input — the ship's horizontal position lies within
`[SHIP_WIDTH/2, canvasW − SHIP_WIDTH/2]` (the code clamps to the strictly
smaller band `[SHIP_WIDTH/2 + 4, canvasW − SHIP_WIDTH/2 − 4]`); `updateShip`
is the only place a tick writes `ship.x`. -/
theorem ship_x_clamped (keys : KeyState) (touchActive : Bool) (dt cw ch : ℚ)
    (ship : Ship) (hW : SHIP_WIDTH + 8 ≤ cw) :
    SHIP_WIDTH / 2 ≤ (updateShip keys touchActive dt cw ch ship).x ∧
    (updateShip keys touchActive dt cw ch ship).x ≤ cw - SHIP_WIDTH / 2 := by
  simp only [updateShip, SHIP_WIDTH] at *
  constructor
  · have h1 : (44 : ℚ)/2 ≤ 44/2 + 4 := by norm_num
    exact h1.trans (le_max_left _ _)
  · apply max_le
    · linarith
    · exact (min_le_left _ _).trans (by linarith)

/-- C7 witness: with no input, `dt = 0`, and the default 800×600 viewport,
the resting ship satisfies the horizontal bound. -/
theorem ship_x_clamped_witness :
    SHIP_WIDTH + 8 ≤ (800 : ℚ) ∧
    SHIP_WIDTH / 2 ≤ (updateShip noKeysW false 0 800 600 shipW).x ∧
    (updateShip noKeysW false 0 800 600 shipW).x ≤ 800 - SHIP_WIDTH / 2 := by
  refine ⟨by norm_num [SHIP_WIDTH], ?_, ?_⟩
  · exact (ship_x_clamped noKeysW false 0 800 600 shipW (by norm_num [SHIP_WIDTH])).1
  · exact (ship_x_clamped noKeysW false 0 800 600 shipW (by norm_num [SHIP_WIDTH])).2

/-- C10: `setBossMathResult` is a silent no-op when no boss exists; when a
boss exists, `setBossMathResult false` raises health by
`⌈maxHealth / 10⌉` capped at `maxHealth` and unconditionally sets the phase
to `attack`, whatever the current phase (including `defeated`). -/
theorem setBossMathResult_unconditional (c : Bool) (s : RaceState) :
    (s.boss = none → setBossMathResult c s = (s, [])) ∧
    (∀ b, s.boss = some b →
      (setBossMathResult false s).1.boss =
        some { b with
               health := min b.maxHealth
                 (b.health + ((⌈b.maxHealth * (1/10)⌉ : ℤ) : ℚ)),
               phase := BossPhase.attack } ∧
      (setBossMathResult false s).2 = []) := by
  constructor
  · intro h
    simp [setBossMathResult, h]
  · intro b hb
    simp [setBossMathResult, hb]

/-- C10 witness: an incorrect result delivered to a defeated boss at 0/15
health heals it to 2 and returns it to the `attack` phase. -/
theorem setBossMathResult_unconditional_witness :
    bossDefeatedW.phase = BossPhase.defeated ∧
    (setBossMathResult false stateDefeatedW).1.boss =
      some { bossDefeatedW with health := 2, phase := BossPhase.attack } ∧
    (setBossMathResult false stateDefeatedW).2 = [] := by
  have h := (setBossMathResult_unconditional false stateDefeatedW).2 bossDefeatedW rfl
  refine ⟨rfl, ?_, h.2⟩
  rw [h.1]
  have hceil : (⌈(3/2 : ℚ)⌉ : ℤ) = 2 := by
    rw [Int.ceil_eq_iff]
    norm_num
  norm_num [bossDefeatedW, bossMathW, hceil, min_def]

/-- C5: when a boss is at exactly 10% of max health,
`setBossMathResult true` (bonus damage `⌈0.3 × maxHealth⌉`) defeats it,
emitting `bossDefeated` exactly once with the boss's reward, while
`setBossMathResult false` heals it by the smaller fixed fraction
`⌈0.1 × maxHealth⌉` (capped) and returns the phase to `attack`. -/
theorem setBossMathResult_at_ten_percent (s : RaceState) (b : Boss)
    (hb : s.boss = some b) (hhp : b.health = b.maxHealth * (1/10))
    (hpos : 0 < b.maxHealth) :
    (∃ b1, (setBossMathResult true s).1.boss = some b1 ∧
      b1.phase = BossPhase.defeated) ∧
    (setBossMathResult true s).2 =
      [Event.bossDefeated b.reward, Event.shardCollect b.reward] ∧
    countBossDefeatedEvents (setBossMathResult true s).2 = 1 ∧
    (∃ b2, (setBossMathResult false s).1.boss = some b2 ∧
      b2.phase = BossPhase.attack ∧
      b2.health = min b.maxHealth
        (b.health + ((⌈b.maxHealth * (1/10)⌉ : ℤ) : ℚ))) := by
  have hdead : b.health - ((⌈b.maxHealth * (3/10)⌉ : ℤ) : ℚ) ≤ 0 := by
    have hceil : (b.maxHealth * (3/10) : ℚ) ≤ ((⌈b.maxHealth * (3/10)⌉ : ℤ) : ℚ) :=
      Int.le_ceil _
    rw [hhp]
    linarith
  simp only [setBossMathResult, hb, if_pos hdead]
  refine ⟨⟨_, rfl, rfl⟩, ?_⟩
  simp [countBossDefeatedEvents]

/-- C5 witness: boss at 3/2 health out of 15 max (10%); a correct result
defeats it with one `bossDefeated 75` event, an incorrect one heals it. -/
theorem setBossMathResult_at_ten_percent_witness :
    bossTenPercentW.health = bossTenPercentW.maxHealth * (1/10) ∧
    (0 : ℚ) < bossTenPercentW.maxHealth ∧
    (∃ b1, (setBossMathResult true stateTenPercentW).1.boss = some b1 ∧
      b1.phase = BossPhase.defeated) ∧
    countBossDefeatedEvents (setBossMathResult true stateTenPercentW).2 = 1 := by
  have h := setBossMathResult_at_ten_percent stateTenPercentW bossTenPercentW rfl
    (by norm_num [bossTenPercentW, bossMathW])
    (by norm_num [bossTenPercentW, bossMathW])
  exact ⟨by norm_num [bossTenPercentW, bossMathW],
    by norm_num [bossTenPercentW, bossMathW], h.1, h.2.2.1⟩

/-- C2: when a tick moves a still-unresolved gate past the ship
(`y + move > ship.y + SHIP_HEIGHT` with `solved = null`), the gate is marked
`solved = false` and exactly one `gatePass false` fires; every later tick
fires none for that gate, so no unresolved gate can stall a run. -/
theorem gate_autofail_exactly_once (move shipY canvasH : ℚ) (g : Gate)
    (hsolved : g.solved = none) (hcross : g.y + move > shipY + SHIP_HEIGHT) :
    (updateGateStep move shipY canvasH g).1.solved = some false ∧
    countGatePassEvents (updateGateStep move shipY canvasH g).2.2 = 1 ∧
    ∀ m2 sy2 ch2, countGatePassEvents
      (updateGateStep m2 sy2 ch2 (updateGateStep move shipY canvasH g).1).2.2 = 0 := by
  have hstep : (updateGateStep move shipY canvasH g).1.solved = some false := by
    simp only [updateGateStep, if_pos (And.intro hcross hsolved)]
  refine ⟨hstep, ?_, ?_⟩
  · simp only [updateGateStep, countGatePassEvents_append]
    rw [if_pos (And.intro hcross hsolved)]
    split <;> simp [countGatePassEvents]
  · intro m2 sy2 ch2
    exact (updateGateStep_resolved_noop m2 sy2 ch2 _ false hstep).2

/-- C2 witness: a gate at y = 560 scrolled by 10 with the ship at y = 500
(threshold 556) auto-fails exactly once and stays failed on the next tick. -/
theorem gate_autofail_exactly_once_witness :
    gateNearShipW.solved = none ∧
    gateNearShipW.y + 10 > 500 + SHIP_HEIGHT ∧
    (updateGateStep 10 500 600 gateNearShipW).1.solved = some false ∧
    countGatePassEvents (updateGateStep 10 500 600 gateNearShipW).2.2 = 1 ∧
    countGatePassEvents
      (updateGateStep 10 500 600 (updateGateStep 10 500 600 gateNearShipW).1).2.2 = 0 := by
  have h := gate_autofail_exactly_once 10 500 600 gateNearShipW rfl
    (by norm_num [gateNearShipW, gateUnresolvedW, SHIP_HEIGHT])
  exact ⟨rfl, by norm_num [gateNearShipW, gateUnresolvedW, SHIP_HEIGHT],
    h.1, h.2.1, h.2.2 10 500 600⟩

/-- C4: a tick spawns a boss exactly when no boss exists, the (updated)
distance since the last boss is at least `BOSS_SPAWN_DISTANCE = 5000`, and
the distance exceeds 2000; in particular no tick ever spawns a boss while
one is alive, and the engine's single nullable boss slot means at most one
boss exists at a time. -/
theorem boss_spawn_guard (dt speedStat : ℚ) (boosting : Bool) (age : ℕ)
    (moveDir cw ch : ℚ) (s : RaceState) :
    let d1 := s.distance +
      BASE_SCROLL_SPEED * speedStat *
        (if boosting then BOOST_SPEED_MULTIPLIER else 1) * dt
    let r := updateDistanceAndBossSpawn dt speedStat boosting age moveDir cw ch s
    (r.1.boss = if s.boss = none ∧ d1 - s.lastBossDistance ≥ BOSS_SPAWN_DISTANCE ∧
        d1 > 2000 then some (spawnBoss age moveDir cw ch) else s.boss) ∧
    (countBossSpawnEvents r.2 = if s.boss = none ∧
        d1 - s.lastBossDistance ≥ BOSS_SPAWN_DISTANCE ∧ d1 > 2000 then 1 else 0) ∧
    (∀ b, s.boss = some b → r.1.boss = some b ∧ countBossSpawnEvents r.2 = 0) := by
  refine ⟨?_, ?_, ?_⟩
  · simp only [updateDistanceAndBossSpawn]
    split
    all_goals split <;> rename_i hg <;> simp [hg]
  · simp only [updateDistanceAndBossSpawn]
    split
    all_goals split <;> rename_i hg <;> simp [hg, countBossSpawnEvents]
  · intro b hb
    simp only [updateDistanceAndBossSpawn]
    rw [if_neg (fun hc => by simp [hb] at hc)]
    exact ⟨hb, by simp [countBossSpawnEvents]⟩

/-- C4 witness: with a live boss (distance 6000, last boss at 5000, so the
distance conditions alone would allow a spawn after a big tick), no spawn
event fires and the boss is unchanged. -/
theorem boss_spawn_guard_witness :
    (updateDistanceAndBossSpawn 30 1 false 9 1 800 600 stateAttackW).1.boss =
      some bossAttackW ∧
    countBossSpawnEvents
      (updateDistanceAndBossSpawn 30 1 false 9 1 800 600 stateAttackW).2 = 0 := by
  exact (boss_spawn_guard 30 1 false 9 1 800 600 stateAttackW).2.2 bossAttackW rfl

/-- One gate tick, with the `gatePass` count and the resulting `solved`
value expressed as functions of the auto-fail condition. -/
theorem updateGateStep_pass_count (m sy ch : ℚ) (g : Gate) :
    countGatePassEvents (updateGateStep m sy ch g).2.2 =
      (if g.y + m > sy + SHIP_HEIGHT ∧ g.solved = none then 1 else 0) ∧
    (updateGateStep m sy ch g).1.solved =
      (if g.y + m > sy + SHIP_HEIGHT ∧ g.solved = none then some false
       else g.solved) := by
  by_cases hp : g.y + m > sy + SHIP_HEIGHT ∧ g.solved = none
  · simp only [updateGateStep, if_pos hp, countGatePassEvents_append]
    refine ⟨?_, trivial⟩
    split <;> simp [countGatePassEvents]
  · simp only [updateGateStep, if_neg hp, countGatePassEvents_append]
    refine ⟨?_, trivial⟩
    split <;> simp [countGatePassEvents]

/-- Once resolved, a gate stays resolved with the same value across any
sequence of ticks and no tick fires `gatePass` for it. -/
theorem runGateTicks_resolved (ticks : List (ℚ × ℚ × ℚ)) (g : Gate) (v : Bool)
    (h : g.solved = some v) :
    countGatePassEvents (runGateTicks ticks (some g)).2 = 0 ∧
    ∀ g2, (runGateTicks ticks (some g)).1 = some g2 → g2.solved = some v := by
  induction ticks generalizing g with
  | nil =>
    refine ⟨rfl, ?_⟩
    intro g2 h2
    simp only [runGateTicks] at h2
    cases h2
    exact h
  | cons t rest ih =>
    obtain ⟨m, sy, hh⟩ := t
    rcases hE : updateGateStep m sy hh g with ⟨g1, keep, evs⟩
    have hstep := updateGateStep_resolved_noop m sy hh g v h
    rw [hE] at hstep
    simp only [runGateTicks, hE, countGatePassEvents_append]
    cases keep with
    | false => simp [runGateTicks, hstep.2, countGatePassEvents]
    | true =>
      have hrest := ih g1 hstep.1
      rcases hR : runGateTicks rest (some g1) with ⟨og2, evs2⟩
      rw [hR] at hrest
      simp only [if_true]
      rw [hR]
      refine ⟨?_, hrest.2⟩
      simp [hstep.2, hrest.1]

/-- Across any sequence of ticks, a gate fires `gatePass` at most once. -/
theorem runGateTicks_pass_bound (ticks : List (ℚ × ℚ × ℚ)) (g : Gate) :
    countGatePassEvents (runGateTicks ticks (some g)).2 ≤ 1 := by
  induction ticks generalizing g with
  | nil => simp [runGateTicks, countGatePassEvents]
  | cons t rest ih =>
    obtain ⟨m, sy, hh⟩ := t
    rcases hE : updateGateStep m sy hh g with ⟨g1, keep, evs⟩
    simp only [runGateTicks, hE, countGatePassEvents_append]
    by_cases hp : g.y + m > sy + SHIP_HEIGHT ∧ g.solved = none
    · have hc : countGatePassEvents evs = 1 := by
        have h0 := (updateGateStep_pass_count m sy hh g).1
        rw [hE, if_pos hp] at h0
        exact h0
      have hs : g1.solved = some false := by
        have h0 := (updateGateStep_pass_count m sy hh g).2
        rw [hE, if_pos hp] at h0
        exact h0
      cases keep with
      | false =>
        simp [runGateTicks, countGatePassEvents, hc]
      | true =>
        have h0 := (runGateTicks_resolved rest g1 false hs).1
        simp only [if_true]
        omega
    · have hc : countGatePassEvents evs = 0 := by
        have h0 := (updateGateStep_pass_count m sy hh g).1
        rw [hE, if_neg hp] at h0
        exact h0
      have hs : g1.solved = g.solved := by
        have h0 := (updateGateStep_pass_count m sy hh g).2
        rw [hE, if_neg hp] at h0
        exact h0
      cases keep with
      | false =>
        simp [runGateTicks, countGatePassEvents, hc]
      | true =>
        simp only [if_true]
        cases hsolved : g.solved with
        | none =>
          have hb := ih g1
          omega
        | some v =>
          have h0 := (runGateTicks_resolved rest g1 v (by rw [hs, hsolved])).1
          omega

/-- C3 counterexample: from a freshly spawned, unresolved gate, the
interleaving "setGateResult(id, true); setGateResult(id, false)" first
resolves the gate to `solved = true` with one `gatePass true`, then changes
the already-resolved gate to `solved = false` and fires `gatePass` a second
time — `setGateResult` never checks that the gate is still unresolved. -/
theorem gate_solved_not_one_shot :
    (setGateResult 0 true [gateUnresolvedW]).2 = [Event.gatePass true] ∧
    (setGateResult 0 true [gateUnresolvedW]).1.map Gate.solved = [some true] ∧
    (setGateResult 0 false (setGateResult 0 true [gateUnresolvedW]).1).2 =
      [Event.gatePass false] ∧
    (setGateResult 0 false (setGateResult 0 true [gateUnresolvedW]).1).1.map
      Gate.solved = [some false] := by
  norm_num [setGateResult, resolveFirstGate, gateUnresolvedW]

/-- C3 (amended): across update ticks alone, a gate's `solved` field
transitions `null → false` at most once — a resolved gate keeps its value
and fires no further `gatePass` — while `setGateResult` sets `solved` and
fires `gatePass` every time it finds the gate, even when the gate is
already resolved. -/
theorem gate_resolution_ticks_once (ticks : List (ℚ × ℚ × ℚ)) (g : Gate) :
    countGatePassEvents (runGateTicks ticks (some g)).2 ≤ 1 ∧
    (∀ v, g.solved = some v →
      countGatePassEvents (runGateTicks ticks (some g)).2 = 0 ∧
      ∀ g2, (runGateTicks ticks (some g)).1 = some g2 → g2.solved = some v) ∧
    (∀ gates gid c gates1, resolveFirstGate gid c gates = some gates1 →
      setGateResult gid c gates = (gates1, [Event.gatePass c])) := by
  refine ⟨runGateTicks_pass_bound ticks g, ?_, ?_⟩
  · intro v hv
    exact runGateTicks_resolved ticks g v hv
  · intro gates gid c gates1 hres
    simp [setGateResult, hres]

/-- C3 witness: a gate already resolved to `true` survives a tick unchanged
with no `gatePass`, and a `setGateResult` on a present gate returns the
rewritten list with one `gatePass` event. -/
theorem gate_resolution_ticks_once_witness :
    countGatePassEvents
      (runGateTicks [(10, 500, 600)]
        (some { gateUnresolvedW with solved := some true })).2 = 0 ∧
    setGateResult 0 false [{ gateUnresolvedW with solved := some true }] =
      ([{ gateUnresolvedW with solved := some false }], [Event.gatePass false]) := by
  constructor
  · exact ((gate_resolution_ticks_once [(10, 500, 600)]
      { gateUnresolvedW with solved := some true }).2.1 true rfl).1
  · exact (gate_resolution_ticks_once [] gateUnresolvedW).2.2
      [{ gateUnresolvedW with solved := some true }] 0 false
      [{ gateUnresolvedW with solved := some false }] rfl

/-- C6 counterexample: with the boss in the `math` phase, a live boss
projectile overlapping the non-invincible ship still produces an
`obstacleHit` event during `updateProjectiles` — the boss-projectile-vs-ship
check never consults the boss phase. -/
theorem boss_projectile_hits_ship_in_math_phase :
    (∃ b, stateMathPhaseW.boss = some b ∧ b.phase = BossPhase.math) ∧
    countObstacleHitEvents (updateProjectiles 0 800 600 stateMathPhaseW).2 = 1 := by
  refine ⟨⟨bossMathW, rfl, rfl⟩, ?_⟩
  norm_num [updateProjectiles, runProjectileList, stepProjectile, stateMathPhaseW,
    shipW, bossMathW, bossShotOnShipW, SHIP_WIDTH, SHIP_HEIGHT,
    countObstacleHitEvents]

/-- C6 (amended): the `attack` phase is the only boss state in which
player-projectile-vs-boss collisions are evaluated — outside it a player
projectile leaves the boss untouched — while boss-projectile-vs-ship
collisions are evaluated in every boss phase: for a boss projectile the
resulting state is unchanged and the `obstacleHit` emission is equivalent to
a condition on bounds, invincibility and overlap that never mentions the
boss. -/
theorem attack_phase_gates_only_boss_damage (dt cw ch : ℚ) (s : RaceState)
    (p : Projectile) :
    (p.fromBoss = false → ∀ b, s.boss = some b → b.phase ≠ BossPhase.attack →
      (stepProjectile dt cw ch s p).1.boss = s.boss) ∧
    (p.fromBoss = true →
      (stepProjectile dt cw ch s p).1 = s ∧
      ((stepProjectile dt cw ch s p).2.2 = [Event.obstacleHit] ↔
        ¬(p.y + p.vy * dt < -30 ∨ p.y + p.vy * dt > ch + 30 ∨
          p.x + p.vx * dt < -30 ∨ p.x + p.vx * dt > cw + 30) ∧
        s.isInvincible = false ∧
        |p.x + p.vx * dt - s.ship.x| < (p.width + SHIP_WIDTH) / 2 - 8 ∧
        |p.y + p.vy * dt - s.ship.y| < (p.height + SHIP_HEIGHT) / 2 - 8)) := by
  constructor
  · intro hp b hb hphase
    simp only [stepProjectile]
    split
    · rfl
    · split
      · rename_i hfb
        simp [hp] at hfb
      · split
        · rfl
        · simp only [hb]
          rw [if_neg (fun hc => hphase hc.1)]
          exact hb
  · intro hp
    simp only [stepProjectile]
    split
    · rename_i hoff
      refine ⟨rfl, ?_⟩
      constructor
      · intro habs
        exact absurd habs (by simp)
      · rintro ⟨hgood, -⟩
        exact absurd hoff hgood
    · rename_i hoff
      split
      · rename_i hhit
        refine ⟨rfl, ?_⟩
        constructor
        · intro h0
          exact ⟨hoff, hhit⟩
        · intro h0
          rfl
      · rename_i hhit
        refine ⟨rfl, ?_⟩
        constructor
        · intro habs
          exact absurd habs (by simp)
        · rintro ⟨-, h2, h3, h4⟩
          exact absurd (And.intro h2 (And.intro h3 h4)) hhit

/-- C6 witness: a stationary player projectile over a math-phase boss leaves
the boss untouched, and a boss projectile over the ship in a boss-free,
non-invincible state still registers the hit condition. -/
theorem attack_phase_gates_only_boss_damage_witness :
    (stepProjectile 0 800 600 stateMathPhaseW playerShotOnBossW).1.boss =
      stateMathPhaseW.boss ∧
    (stepProjectile 0 800 600 stateMathPhaseW bossShotOnShipW).1 =
      stateMathPhaseW := by
  constructor
  · exact (attack_phase_gates_only_boss_damage 0 800 600 stateMathPhaseW
      playerShotOnBossW).1 rfl bossMathW rfl (by simp [bossMathW])
  · exact ((attack_phase_gates_only_boss_damage 0 800 600 stateMathPhaseW
      bossShotOnShipW).2 rfl).1

/-- Resolving one projectile spends at most the boss's remaining math-phase
allowance: a `bossMathPhase` emission flips `mathTriggered` from `false` to
`true`, and nothing ever resets the flag. -/
theorem stepProjectile_math_budget (dt cw ch : ℚ) (s : RaceState) (p : Projectile) :
    countMathEvents (stepProjectile dt cw ch s p).2.2 +
      mathBudget (stepProjectile dt cw ch s p).1.boss ≤ mathBudget s.boss := by
  rcases hB : s.boss with _ | b
  · simp only [stepProjectile, hB]
    split
    · simp [hB, countMathEvents, mathBudget]
    · split
      · split <;> simp [hB, countMathEvents, mathBudget]
      · split
        · simp [hB, countMathEvents, mathBudget]
        · simp [hB, countMathEvents, mathBudget]
  · simp only [stepProjectile, hB]
    split
    · simp [hB, countMathEvents, mathBudget]
    · split
      · split <;> simp [hB, countMathEvents, mathBudget]
      · split
        · simp [hB, countMathEvents, mathBudget]
        · split
          · by_cases htr : b.mathTriggered = false ∧
                b.health - p.damage ≤ b.maxHealth * BOSS_MATH_THRESHOLD
            · simp only [if_pos htr]
              split
              · simp [hB, countMathEvents, countMathEvents_append, mathBudget, htr.1]
              · simp [hB, countMathEvents, countMathEvents_append, mathBudget, htr.1]
            · simp only [if_neg htr]
              split
              · simp [hB, countMathEvents, countMathEvents_append, mathBudget]
              · simp [hB, countMathEvents, countMathEvents_append, mathBudget]
          · simp [hB, countMathEvents, mathBudget]

/-- The projectile fold spends at most the initial math-phase allowance. -/
theorem runProjectileList_math_budget (dt cw ch : ℚ) (s : RaceState)
    (ps : List Projectile) :
    countMathEvents (runProjectileList dt cw ch s ps).2.2 +
      mathBudget (runProjectileList dt cw ch s ps).1.boss ≤ mathBudget s.boss := by
  induction ps generalizing s with
  | nil => simp [runProjectileList, countMathEvents]
  | cons p rest ih =>
    rcases hE : stepProjectile dt cw ch s p with ⟨s1, kept, evs⟩
    have h1 := stepProjectile_math_budget dt cw ch s p
    rw [hE] at h1
    have h1a : countMathEvents evs + mathBudget s1.boss ≤ mathBudget s.boss := h1
    have h2 := ih s1
    rcases hR : runProjectileList dt cw ch s1 rest with ⟨s2, kept2, evs2⟩
    rw [hR] at h2
    have h2a : countMathEvents evs2 + mathBudget s2.boss ≤ mathBudget s1.boss := h2
    simp only [runProjectileList, hE, hR, countMathEvents_append]
    omega

/-- A projectile tick emits at most the remaining math-phase allowance. -/
theorem updateProjectiles_math_budget (dt cw ch : ℚ) (s : RaceState) :
    countMathEvents (updateProjectiles dt cw ch s).2 +
      mathBudget (updateProjectiles dt cw ch s).1.boss ≤ mathBudget s.boss := by
  rcases hR : runProjectileList dt cw ch s s.projectiles with ⟨s1, kept, evs⟩
  have h := runProjectileList_math_budget dt cw ch s s.projectiles
  rw [hR] at h
  have ha : countMathEvents evs + mathBudget s1.boss ≤ mathBudget s.boss := h
  simp only [updateProjectiles, hR]
  exact ha

theorem mathBudget_none : mathBudget none = 0 := rfl

theorem mathBudget_some (b : Boss) :
    mathBudget (some b) = if b.mathTriggered then 0 else 1 := rfl

/-- `updateBoss` never touches `mathTriggered` and never discards the boss. -/
theorem updateBoss_preserves_math (dt cw : ℚ) (v : ℚ × ℚ) (s : RaceState) :
    mathBudget (updateBoss dt cw v s).boss = mathBudget s.boss := by
  rcases hB : s.boss with _ | b
  · simp [updateBoss, hB]
  · by_cases hdf : b.damageFlash > 0
    · simp only [updateBoss, hB, if_pos hdf]
      split
      · split <;> simp [hB, mathBudget_some]
      · split <;> simp [hB, mathBudget_some]
      · simp [hB, mathBudget_some]
      · simp [hB, mathBudget_some]
    · simp only [updateBoss, hB, if_neg hdf]
      split
      · split <;> simp [hB, mathBudget_some]
      · split <;> simp [hB, mathBudget_some]
      · simp [hB, mathBudget_some]
      · simp [hB, mathBudget_some]

/-- `setBossMathResult` emits no math-phase event and never resets the
one-shot flag. -/
theorem setBossMathResult_no_math (c : Bool) (s : RaceState) :
    countMathEvents (setBossMathResult c s).2 = 0 ∧
    mathBudget (setBossMathResult c s).1.boss ≤ mathBudget s.boss := by
  rcases hB : s.boss with _ | b
  · simp [setBossMathResult, hB, countMathEvents]
  · simp only [setBossMathResult, hB]
    cases c
    · simp [countMathEvents, mathBudget_some]
    · rw [if_pos (rfl : true = true)]
      split
      · simp [hB, countMathEvents, mathBudget_some]
      · simp [hB, countMathEvents, mathBudget_some]

/-- Every engine step spends at most the remaining math-phase allowance. -/
theorem applyOp_math_budget (s : RaceState) (op : EngineOp) :
    countMathEvents (applyOp s op).2 + mathBudget (applyOp s op).1.boss ≤
      mathBudget s.boss := by
  cases op with
  | projTick dt cw ch => exact updateProjectiles_math_budget dt cw ch s
  | bossTick dt cw v =>
    have h := updateBoss_preserves_math dt cw v s
    simp [applyOp, countMathEvents, h]
  | mathResult c =>
    obtain ⟨h1, h2⟩ := setBossMathResult_no_math c s
    simp only [applyOp, h1]
    omega
  | bossClear => simp [applyOp, countMathEvents, mathBudget]
  | addProjectile p => simp [applyOp, countMathEvents]

/-- A run of engine steps emits at most the initial math-phase allowance. -/
theorem runOps_math_budget (ops : List EngineOp) (s : RaceState) :
    countMathEvents (runOps s ops).2 + mathBudget (runOps s ops).1.boss ≤
      mathBudget s.boss := by
  induction ops generalizing s with
  | nil => simp [runOps, countMathEvents]
  | cons op rest ih =>
    rcases hE : applyOp s op with ⟨s1, evs⟩
    have h1 := applyOp_math_budget s op
    rw [hE] at h1
    have h1a : countMathEvents evs + mathBudget s1.boss ≤ mathBudget s.boss := h1
    have h2 := ih s1
    rcases hR : runOps s1 rest with ⟨s2, evs2⟩
    rw [hR] at h2
    have h2a : countMathEvents evs2 + mathBudget s2.boss ≤ mathBudget s1.boss := h2
    simp only [runOps, hE, hR, countMathEvents_append]
    omega

/-- A `bossMathPhase` emission can only come from a player projectile hitting
an attack-phase boss whose one-shot flag is unused, with the post-damage
health at or below the 50% threshold. -/
theorem stepProjectile_math_source (dt cw ch : ℚ) (t : RaceState)
    (p : Projectile)
    (hmem : Event.bossMathPhase ∈ (stepProjectile dt cw ch t p).2.2) :
    p.fromBoss = false ∧ ∃ b, t.boss = some b ∧ b.phase = BossPhase.attack ∧
      b.mathTriggered = false ∧
      b.health - p.damage ≤ b.maxHealth * BOSS_MATH_THRESHOLD := by
  rcases hB : t.boss with _ | b
  · exfalso
    simp only [stepProjectile, hB] at hmem
    split at hmem
    · simp at hmem
    · split at hmem
      · split at hmem <;> simp at hmem
      · split at hmem
        · simp at hmem
        · simp at hmem
  · simp only [stepProjectile, hB] at hmem
    split at hmem
    · simp at hmem
    · split at hmem
      · split at hmem <;> simp at hmem
      · rename_i hfb
        split at hmem
        · simp at hmem
        · split at hmem
          · rename_i hatk
            by_cases htr : b.mathTriggered = false ∧
                b.health - p.damage ≤ b.maxHealth * BOSS_MATH_THRESHOLD
            · refine ⟨?_, b, rfl, hatk.1, htr.1, htr.2⟩
              simpa using hfb
            · exfalso
              simp only [if_neg htr] at hmem
              split at hmem <;> simp at hmem
          · simp at hmem

/-- C1: starting from a freshly spawned boss, any sequence of engine steps
(projectile ticks, boss ticks, math-result calls, projectile insertions and
the deferred boss removal) emits `bossMathPhase` at most once; moreover an
emission can only occur on a damage application by a player projectile to an
attack-phase boss whose one-shot flag is still unused and whose resulting
health is at most 50% of max health — so later damage while health stays at
or below 50% can never re-enter the math phase. -/
theorem boss_math_phase_at_most_once (age : ℕ) (moveDir cw ch : ℚ)
    (s : RaceState) (ops : List EngineOp) :
    countMathEvents
      (runOps { s with boss := some (spawnBoss age moveDir cw ch) } ops).2 ≤ 1 ∧
    (∀ dt cw2 ch2 t p, Event.bossMathPhase ∈ (stepProjectile dt cw2 ch2 t p).2.2 →
      p.fromBoss = false ∧ ∃ b, t.boss = some b ∧ b.phase = BossPhase.attack ∧
        b.mathTriggered = false ∧
        b.health - p.damage ≤ b.maxHealth * BOSS_MATH_THRESHOLD) := by
  constructor
  · have h := runOps_math_budget ops { s with boss := some (spawnBoss age moveDir cw ch) }
    have hstart : mathBudget ({ s with
        boss := some (spawnBoss age moveDir cw ch) } : RaceState).boss = 1 := by
      simp [mathBudget, spawnBoss]
    rw [hstart] at h
    omega
  · intro dt cw2 ch2 t p hmem
    exact stepProjectile_math_source dt cw2 ch2 t p hmem

/-- C1 witness: the empty run emits no math event, and a concrete hit on an
attack-phase boss at 8/15 health (crossing the 7.5 threshold) is a valid
source of the single math-phase emission. -/
theorem boss_math_phase_at_most_once_witness :
    countMathEvents
      (runOps { stateMathPhaseW with boss := some (spawnBoss 9 1 800 600) } []).2 ≤ 1 ∧
    (playerShotOnBossW.fromBoss = false ∧ ∃ b, stateAttackW.boss = some b ∧
      b.phase = BossPhase.attack ∧ b.mathTriggered = false ∧
      b.health - playerShotOnBossW.damage ≤
        b.maxHealth * BOSS_MATH_THRESHOLD) := by
  constructor
  · exact (boss_math_phase_at_most_once 9 1 800 600 stateMathPhaseW []).1
  · refine (boss_math_phase_at_most_once 9 1 800 600 stateMathPhaseW []).2
      0 800 600 stateAttackW playerShotOnBossW ?_
    norm_num [stepProjectile, stateAttackW, stateMathPhaseW, bossAttackW, bossMathW,
      playerShotOnBossW, shipW, destroyLastHitRock, BOSS_MATH_THRESHOLD,
      SHIP_WIDTH, SHIP_HEIGHT]

end CrystalCore
